import Mathlib

/-!
Shallow embedding of the MatX lazy tensor-expression operator layer
(`slice.h`, `matmul.h`, `cov.h`, `cumsum.h`, `trace.h`, `qr.h`).

Index values (`index_t`) are modelled as `Int`; shape arrays become lists or
functions `Nat → Int`; C++ code that can fail (assertions, deleted member
functions, static_asserts) is modelled with `Except`/`Option`.
-/

/-- An operator/tensor node as seen through the capability contract of
`base_operator.h`: a compile-time rank, per-dimension extents (`Size`), and
element access (`operator()`), which in the source receives exactly `Rank()`
index arguments; here `read` receives the list of those indices. -/
structure Operator (α : Type) where
  rank : Nat
  size : Nat → Int
  read : List Int → α

/-- The `ends` entry of a slice: an explicit exclusive end coordinate, the
`matxEnd` sentinel ("all remaining elements"), or the `matxDropDim` sentinel
("remove that dimension").  The sentinels are reserved values distinguishable
from any valid coordinate (`slice.h`). -/
inductive SliceBound where
  | explicit : Int → SliceBound
  | matxEnd : SliceBound
  | matxDropDim : SliceBound
deriving DecidableEq

/-- Ceiling division, the effect of
`(shape_type)std::ceil(static_cast<double>(a) / static_cast<double>(b))`
in `SliceOp`s constructor for a positive divisor `b`. -/
def cdiv (a b : Int) : Int := -(-a / b)

/-- The original dimensions kept by a slice, in original order: the loop
counter `i` of `SliceOp::SliceOp` collects every `i` with
`ends[i] != matxDropDim` into `dims_`. -/
def retainedDims (rank : Nat) (ends : Nat → SliceBound) : List Nat :=
  (List.range rank).filter (fun i => ends i ≠ SliceBound.matxDropDim)

/-- The pre-stride extent of original dimension `i` in `SliceOp::SliceOp`:
`op.Size(i) - start` when `ends[i] == matxEnd`, else `end - start`.
The `matxDropDim` case is never used for a retained dimension. -/
def rawExtent (op : Operator α) (starts : Nat → Int) (ends : Nat → SliceBound)
    (i : Nat) : Int :=
  match ends i with
  | SliceBound.explicit e => e - starts i
  | SliceBound.matxEnd => op.size i - starts i
  | SliceBound.matxDropDim => 0

/-- The `sizes_` array built by the constructor loop of `SliceOp::SliceOp`:
for the `d`-th retained dimension `i`,
`sizes_[d] = ceil((end-resolved extent of i) / strides_[d])`.
Note the source divides by `strides_[d]` (the stride stored at the OUTPUT
position `d`), not by `strides_[i]`. -/
def sliceSizesAux (op : Operator α) (starts : Nat → Int) (ends : Nat → SliceBound)
    (strides : Nat → Int) : List Nat → Nat → List Int
  | [], _ => []
  | i :: rest, d =>
      cdiv (rawExtent op starts ends i) (strides d) ::
        sliceSizesAux op starts ends strides rest (d + 1)

/-- The data of a constructed `detail::SliceOp<DIM, T>`: the wrapped operand
`op_`, the declared output rank `DIM`, the copied `starts_`/`strides_` arrays
(indexed by original dimension), the retained-dimension map `dims_`, and the
derived output extents `sizes_`. -/
structure SliceOp (α : Type) where
  op_ : Operator α
  outRank : Nat
  starts_ : Nat → Int
  strides_ : Nat → Int
  dims_ : List Nat
  sizes_ : List Int

/-- `SliceOp::SliceOp`: copies `starts`/`strides`, collects the non-dropped
dimensions into `dims_` with their extents in `sizes_`, then checks
`MATX_ASSERT_STR(d == Rank(), ...)`; the failed assertion is modelled as an
`Except.error` carrying the diagnostic. -/
def mkSliceOp (DIM : Nat) (op : Operator α) (starts : Nat → Int)
    (ends : Nat → SliceBound) (strides : Nat → Int) : Except String (SliceOp α) :=
  let dims := retainedDims op.rank ends
  if dims.length = DIM then
    Except.ok ⟨op, DIM, starts, strides, dims, sliceSizesAux op starts ends strides dims 0⟩
  else
    Except.error "SliceOp: Number of dimensions without matxDropDim must equal new rank."

/-- The index-rebuilding loop of `SliceOp::operator()`:
`for(i = 0; i < Rank(); i++) ind[dims_[i]] += inds[i] * strides_[i];`
starting from `ind[j] = starts_[j]`.  The counter `d` is the loop variable;
note the source multiplies by `strides_[d]` (stride stored at the OUTPUT
position), not by `strides_[dims_[d]]`. -/
def sliceIndexAux (strides inds : Nat → Int) : List Nat → Nat → (Nat → Int) → Nat → Int
  | [], _, ind => ind
  | i :: rest, d, ind =>
      sliceIndexAux strides inds rest (d + 1)
        (Function.update ind i (ind i + inds d * strides d))

/-- The full original-rank index vector reconstructed by `SliceOp::operator()`
from the output indices `inds`. -/
def sliceIndexFun (s : SliceOp α) (inds : Nat → Int) : Nat → Int :=
  sliceIndexAux s.strides_ inds s.dims_ 0 (fun i => s.starts_ i)

/-- `SliceOp::operator()`: delegate to the wrapped operand, passing the
reconstructed index vector (the source calls `mapply(op_, ind)`, i.e. passes
exactly `T::Rank()` indices). -/
def sliceAccess (s : SliceOp α) (inds : Nat → Int) : α :=
  s.op_.read ((List.range s.op_.rank).map (sliceIndexFun s inds))

/-- A constructed slice viewed again through the operator contract
(`Rank() = DIM`, `Size(dim) = sizes_[dim]`, `operator()` as above), so that a
slice can wrap another slice. -/
def SliceOp.toOperator (s : SliceOp α) : Operator α :=
  ⟨s.outRank, fun d => s.sizes_.getD d 0, fun l => sliceAccess s (fun d => l.getD d 0)⟩

/-- Modelled from the spec: the index rebuilding described in §4.2 —
"initializing every coordinate to that dimension's start offset, then for each
output dimension add `index * stride` at its recorded original position" —
where the stride belonging to a retained original dimension is the one the
caller supplied for that original dimension (`strides_[dims_[d]]`). -/
def specSliceIndexAux (strides inds : Nat → Int) : List Nat → Nat → (Nat → Int) → Nat → Int
  | [], _, ind => ind
  | i :: rest, d, ind =>
      specSliceIndexAux strides inds rest (d + 1)
        (Function.update ind i (ind i + inds d * strides i))

/-- Modelled from the spec: the full reconstructed index vector under the
spec's reading of the stride (per retained original dimension). -/
def specSliceIndexFun (s : SliceOp α) (inds : Nat → Int) : Nat → Int :=
  specSliceIndexAux s.strides_ inds s.dims_ 0 (fun i => s.starts_ i)

/-- Modelled from the spec: element access delegating with the spec-read
index vector. -/
def specSliceAccess (s : SliceOp α) (inds : Nat → Int) : α :=
  s.op_.read ((List.range s.op_.rank).map (specSliceIndexFun s inds))

/-- Modelled from the spec: "Derived per-output-dimension size =
ceil((end−start)/stride)" for retained original dimension `i`, where an
explicit end resolves to itself, `matxEnd` resolves to the operand's extent,
and the stride is the one supplied for dimension `i`. -/
def specRetainedSize (op : Operator α) (starts : Nat → Int) (ends : Nat → SliceBound)
    (strides : Nat → Int) (i : Nat) : Int :=
  cdiv (rawExtent op starts ends i) (strides i)

/-- A shape-only view of an operand, enough for the output-extent rules of the
transform nodes (`matmul.h`): a rank and per-dimension extents. -/
structure ShapeOp where
  rank : Nat
  size : Nat → Int

/-- Modelled from the spec: `detail::getPermuteDims<RANK>(axis)` (not under
`src/`) — the permutation that "logically permutes the dimensions to move the
chosen axis pair to the trailing position", keeping the remaining dimensions
in their original order; entry `r` names the original dimension placed at
position `r`. -/
def permuteList (rank : Nat) (axis : Nat × Nat) : List Nat :=
  ((List.range rank).filter (fun i => i ≠ axis.1 ∧ i ≠ axis.2)) ++ [axis.1, axis.2]

/-- Modelled from the spec: the `permute` view (not under `src/`) — dimension
`i` of the permuted operand is dimension `perm i` of the original, so
`permute(A, perm).Size(i) = A.Size(perm[i])`. -/
def permuteShape (A : ShapeOp) (perm : Nat → Nat) : ShapeOp :=
  ⟨A.rank, fun i => A.size (perm i)⟩

/-- The `out_dims_` computation of `MatMulOp::MatMulOp` in the
`no_permute_t` branch, with the writes in source order (later writes win):
`out_dims_[r] = a.Size(r)` for `r < Rank()-2`, then
`out_dims_[OpA::Rank()-2] = a.Size(OpA::Rank()-2)`, then
`out_dims_[OpB::Rank()-1] = b.Size(OpB::Rank()-1)`; entries never written
stay indeterminate (`none`). -/
def matMulNoPermOutDims (a b : ShapeOp) : Nat → Option Int := fun r =>
  if r = b.rank - 1 then some (b.size (b.rank - 1))
  else if r = a.rank - 2 then some (a.size (a.rank - 2))
  else if r < a.rank - 2 then some (a.size r)
  else none

/-- The `out_dims_` computation of `MatMulOp::MatMulOp` in the permuted
branch, operating on the already-permuted operands `a_`/`b_`:
`if perm_[r] == Rank()-2 then a_.Size(perm_[r]) else if perm_[r] == Rank()-1
then b_.Size(perm_[r]) else a_.Size(r)`. -/
def matMulPermOutDims (a b : ShapeOp) (perm : Nat → Nat) : Nat → Int := fun r =>
  if perm r = a.rank - 2 then a.size (perm r)
  else if perm r = a.rank - 1 then b.size (perm r)
  else a.size r

/-- The axis overload `matmul(A, B, axis, ...)`: builds
`perm = getPermuteDims(axis)`, permutes both operands, and constructs
`MatMulOp(permute(A,perm), permute(B,perm), ..., perm)`; this is the
extent vector that node reports through `Size`. -/
def matMulWithAxisOutDims (A B : ShapeOp) (axis : Nat × Nat) : Nat → Int :=
  let permL := permuteList A.rank axis
  let perm := fun r => permL.getD r 0
  matMulPermOutDims (permuteShape A perm) (permuteShape B perm) perm

/-- Modelled from the spec: the permuted-then-restored output-extent rule for
an explicit axis pair — permute both operands with `getPermuteDims(axis)`,
apply the no-permutation rule (batch and second-to-last from permuted A, last
from permuted B), and permute the resulting extents back before exposing
them, i.e. `out[perm[r]] = naive[r]`. -/
def specPermutedMatMulDims (A B : ShapeOp) (axis : Nat × Nat) : Nat → Int := fun q =>
  let permL := permuteList A.rank axis
  let perm := fun r => permL.getD r 0
  let pA := permuteShape A perm
  let pB := permuteShape B perm
  let naive : Nat → Int := fun r => if r = A.rank - 1 then pB.size r else pA.size r
  naive (permL.findIdx (fun i => i = q))

/-- The number of printable entries of `MatMulOp::out_dims_`
(`std::array<index_t, OpA::Rank()>`). -/
def matMulOutDimsLen (a : ShapeOp) : Nat := a.rank

/-- The permuted-branch constructor body of `MatMulOp::MatMulOp`: computes
`out_dims_` and then unconditionally executes
`printf("%lld %lld %lld\n", out_dims_[0], out_dims_[1], out_dims_[2])`;
the second component records the `out_dims_` indices read by that `printf`. -/
def matMulPermConstruct (a b : ShapeOp) (perm : Nat → Nat) : (Nat → Int) × List Nat :=
  (matMulPermOutDims a b perm, [0, 1, 2])

/-- The `no_permute_t` constructor branch of `MatMulOp::MatMulOp`: computes
`out_dims_` and reads no entry for printing. -/
def matMulNoPermConstruct (a b : ShapeOp) : (Nat → Option Int) × List Nat :=
  (matMulNoPermOutDims a b, [])

/-- The fixed-length initial value of `CovOp::out_dims_`
(`std::array<index_t, 2>`), entries indeterminate before the constructor
loop writes them. -/
def covOutDimsInit : List (Option Int) := [none, none]

/-- The indices written by the constructor loop of `CovOp::CovOp`:
`for (int r = 0; r < Rank(); r++) out_dims_[r] = a_.Size(r);`. -/
def covWriteIndices (rank : Nat) : List Nat := List.range rank

/-- A constructed `detail::CovOp`: its rank (`OpA::Rank()`) and the
`out_dims_` array after the constructor loop. -/
structure CovOp where
  rank : Nat
  out_dims_ : List (Option Int)

/-- `CovOp::CovOp`: writes `out_dims_[r] = a.Size(r)` for every
`r < Rank()`.  The writes are in bounds only when every written index is
below the array length 2; an out-of-bounds write is undefined behaviour in
the source and is modelled here as a failed construction (`none`). -/
def mkCovOp (a : Operator α) : Option CovOp :=
  if (covWriteIndices a.rank).all (fun r => r < covOutDimsInit.length) then
    some ⟨a.rank,
      (covWriteIndices a.rank).foldl (fun l r => l.set r (some (a.size r))) covOutDimsInit⟩
  else none

/-- `CovOp::Size(dim)`: reads `out_dims_[dim]` from the same array the
constructor wrote. -/
def covSize (c : CovOp) (dim : Nat) : Option Int := c.out_dims_.getD dim none

/-- A constructed `detail::CumSumOp`: rank `OpA::Rank()` and the
`out_dims_` array (`std::array<index_t, OpA::Rank()>`) filled by the
constructor loop `out_dims_[r] = a_.Size(r)`. -/
structure CumSumOp where
  rank : Nat
  out_dims_ : List Int

/-- `CumSumOp::CumSumOp`: captures the operand and copies its extents. -/
def mkCumSumOp (a : Operator α) : CumSumOp :=
  ⟨a.rank, (List.range a.rank).map a.size⟩

/-- `CumSumOp::Size(dim)`: reads `out_dims_[dim]`. -/
def cumSumSize (c : CumSumOp) (dim : Nat) : Int := c.out_dims_.getD dim 0

/-- `TraceOp::Rank()`: the trace node always reports rank 0 (scalar). -/
def traceRank : Nat := 0

/-- `TraceOp::Size(dim)`: always 1. -/
def traceSize (_dim : Nat) : Int := 1

/-- The kind of execution context (`Executor`): the asynchronous/device
executor (`is_device_executor_v` true) or the synchronous/host one. -/
inductive ExecKind where
  | deviceExec : ExecKind
  | hostExec : ExecKind
deriving DecidableEq

/-- The memory kind passed to `make_tensor` for an owned temporary. -/
inductive MemKind where
  | asyncDevice : MemKind
  | hostMem : MemKind
deriving DecidableEq

/-- The owned-temporary allocation performed by `CovOp::PreRun`: only under
`if constexpr (is_device_executor_v<Executor>)` does it run
`make_tensor(tmp_out_, out_dims_, MATX_ASYNC_DEVICE_MEMORY, stream)`;
the result records the extents and memory kind of the allocation, or `none`
when this path allocates nothing. -/
def covPreRunAlloc (dims : List (Option Int)) :
    ExecKind → Option (List (Option Int) × MemKind)
  | ExecKind.deviceExec => some (dims, MemKind.asyncDevice)
  | ExecKind.hostExec => none

/-- The owned-temporary allocation performed by `CumSumOp::PreRun` (same
device-only gate as cov). -/
def cumSumPreRunAlloc (dims : List Int) : ExecKind → Option (List Int × MemKind)
  | ExecKind.deviceExec => some (dims, MemKind.asyncDevice)
  | ExecKind.hostExec => none

/-- The owned-temporary allocation performed by `MatMulOp::PreRun` (same
device-only gate as cov). -/
def matMulPreRunAlloc (dims : List Int) : ExecKind → Option (List Int × MemKind)
  | ExecKind.deviceExec => some (dims, MemKind.asyncDevice)
  | ExecKind.hostExec => none

/-- The owned-temporary allocation performed by `TraceOp::PreRun`: on the
device executor it runs `make_tensor(tmp_out_, MATX_ASYNC_DEVICE_MEMORY,
stream)`, and in the `else` branch it runs
`make_tensor(tmp_out_, MATX_HOST_MEMORY)` — so this path allocates on BOTH
kinds of execution context (the temporary is rank 0, so no extent vector). -/
def tracePreRunAlloc : ExecKind → Option MemKind
  | ExecKind.deviceExec => some MemKind.asyncDevice
  | ExecKind.hostExec => some MemKind.hostMem

/-- Whether an `Except` computation succeeded. -/
def isOkE : Except String β → Bool
  | Except.ok _ => true
  | Except.error _ => false

/-- `QROp::operator()` is `= delete` ("This should never be called"): any
element access of a `qr` node fails. -/
def qrAccess (α : Type) (_indices : List Int) : Except String α :=
  Except.error "QROp: operator() is deleted"

/-- `QROp::PreRun`: unconditionally runs
`MATX_ASSERT_STR(false, matxNotSupported, ...)` with its diagnostic. -/
def qrPreRun : Except String Unit :=
  Except.error "qr() must only be called with a single assignment"

/-- `QROp::Exec`: `static_assert(std::tuple_size_v<Out> == 3, ...)` — the
destination must be a tuple of exactly 3 outputs; then `qr_impl` is called. -/
def qrExec (destArity : Nat) : Except String Unit :=
  if destArity = 3 then Except.ok ()
  else Except.error "Must use mtie with 3 outputs on qr(). ie: (mtie(Q, R) = qr(A))"

/-- `CuSolverQROp::operator()` is `= delete`: any element access fails. -/
def cuSolverQrAccess (α : Type) (_indices : List Int) : Except String α :=
  Except.error "CuSolverQROp: operator() is deleted"

/-- `CuSolverQROp::PreRun`: unconditionally fails with its diagnostic. -/
def cuSolverQrPreRun : Except String Unit :=
  Except.error "cusolver_qr() must only be called with a single assignment since it has multiple return types"

/-- `CuSolverQROp::Exec`: `static_assert(std::tuple_size_v<Out> == 3, ...)`
(the message mentions 2 outputs but the checked arity is 3). -/
def cuSolverQrExec (destArity : Nat) : Except String Unit :=
  if destArity = 3 then Except.ok ()
  else Except.error "Must use mtie with 2 outputs on cusolver_qr(). ie: (mtie(A, tau) = eig(A))"

/-- A coordinate never touched by the rebuilding loop keeps its initial
value. -/
theorem sliceIndexAux_not_mem (strides inds : Nat → Int) :
    ∀ (dims : List Nat) (d : Nat) (ind : Nat → Int) (j : Nat), j ∉ dims →
      sliceIndexAux strides inds dims d ind j = ind j := by
  intro dims
  induction dims with
  | nil => intro d ind j _; rfl
  | cons i rest ih =>
      intro d ind j h
      simp only [sliceIndexAux]
      rw [ih (d + 1) _ j (fun hj => h (List.mem_cons_of_mem _ hj))]
      exact Function.update_noteq (fun he => h (by rw [he]; exact List.mem_cons_self i rest)) _ _

/-- The rebuilt coordinate at the `k`-th retained dimension `j` is the
initial value plus `inds[c+k] * strides[c+k]`, where `c` is the starting
value of the loop counter. -/
theorem sliceIndexAux_get (strides inds : Nat → Int) :
    ∀ (dims : List Nat), dims.Nodup →
      ∀ (k c : Nat) (ind : Nat → Int) (j : Nat), dims.get? k = some j →
        sliceIndexAux strides inds dims c ind j
          = ind j + inds (c + k) * strides (c + k) := by
  intro dims
  induction dims with
  | nil => intro _ k c ind j h; cases h
  | cons i rest ih =>
      intro hnd k c ind j h
      match k with
      | 0 =>
          have hij : i = j := by simpa using h
          subst hij
          simp only [sliceIndexAux]
          rw [sliceIndexAux_not_mem strides inds rest (c + 1) _ i
            (List.nodup_cons.mp hnd).1]
          simp [Function.update_same]
      | k + 1 =>
          have hj : rest.get? k = some j := by simpa using h
          have hmem : j ∈ rest := List.get?_mem hj
          have hne : j ≠ i := fun he => (List.nodup_cons.mp hnd).1 (he ▸ hmem)
          simp only [sliceIndexAux]
          rw [ih (List.nodup_cons.mp hnd).2 k (c + 1) _ j hj]
          rw [Function.update_noteq hne]
          have hc : c + 1 + k = c + (k + 1) := by omega
          rw [hc]

/-- Same two facts for the spec-modelled rebuilding loop: untouched
coordinates keep their initial value. -/
theorem specSliceIndexAux_not_mem (strides inds : Nat → Int) :
    ∀ (dims : List Nat) (d : Nat) (ind : Nat → Int) (j : Nat), j ∉ dims →
      specSliceIndexAux strides inds dims d ind j = ind j := by
  intro dims
  induction dims with
  | nil => intro d ind j _; rfl
  | cons i rest ih =>
      intro d ind j h
      simp only [specSliceIndexAux]
      rw [ih (d + 1) _ j (fun hj => h (List.mem_cons_of_mem _ hj))]
      exact Function.update_noteq (fun he => h (by rw [he]; exact List.mem_cons_self i rest)) _ _

/-- Spec-modelled loop: the rebuilt coordinate at the `k`-th retained
dimension `j` adds `inds[c+k] * strides[j]` (stride of the original
dimension). -/
theorem specSliceIndexAux_get (strides inds : Nat → Int) :
    ∀ (dims : List Nat), dims.Nodup →
      ∀ (k c : Nat) (ind : Nat → Int) (j : Nat), dims.get? k = some j →
        specSliceIndexAux strides inds dims c ind j
          = ind j + inds (c + k) * strides j := by
  intro dims
  induction dims with
  | nil => intro _ k c ind j h; cases h
  | cons i rest ih =>
      intro hnd k c ind j h
      match k with
      | 0 =>
          have hij : i = j := by simpa using h
          subst hij
          simp only [specSliceIndexAux]
          rw [specSliceIndexAux_not_mem strides inds rest (c + 1) _ i
            (List.nodup_cons.mp hnd).1]
          simp [Function.update_same]
      | k + 1 =>
          have hj : rest.get? k = some j := by simpa using h
          have hmem : j ∈ rest := List.get?_mem hj
          have hne : j ≠ i := fun he => (List.nodup_cons.mp hnd).1 (he ▸ hmem)
          simp only [specSliceIndexAux]
          rw [ih (List.nodup_cons.mp hnd).2 k (c + 1) _ j hj]
          rw [Function.update_noteq hne]
          have hc : c + 1 + k = c + (k + 1) := by omega
          rw [hc]

/-- A slice that drops no dimension retains every original dimension, in
order. -/
theorem retainedDims_no_drop (rank : Nat) (ends : Nat → SliceBound)
    (h : ∀ i, ends i ≠ SliceBound.matxDropDim) :
    retainedDims rank ends = List.range rank := by
  unfold retainedDims
  rw [List.filter_eq_self]
  intro a _
  simp [h a]

/-- `retainedDims` lists pairwise-distinct dimensions. -/
theorem retainedDims_nodup (rank : Nat) (ends : Nat → SliceBound) :
    (retainedDims rank ends).Nodup :=
  (List.nodup_range rank).filter _

/-- A drop-free slice construction with declared rank equal to the operand
rank always succeeds, and the result is the evident structure. -/
theorem mkSliceOp_no_drop (op : Operator α) (starts : Nat → Int)
    (ends : Nat → SliceBound) (strides : Nat → Int)
    (h : ∀ i, ends i ≠ SliceBound.matxDropDim) :
    mkSliceOp op.rank op starts ends strides =
      Except.ok ⟨op, op.rank, starts, strides, List.range op.rank,
        sliceSizesAux op starts ends strides (List.range op.rank) 0⟩ := by
  unfold mkSliceOp
  rw [retainedDims_no_drop op.rank ends h]
  simp

/-- For a drop-free slice, the rebuilt coordinate at any original dimension
`j < rank` is `starts[j] + inds[j] * strides[j]`. -/
theorem sliceIndexFun_no_drop (s : SliceOp α) (hd : s.dims_ = List.range s.op_.rank)
    (inds : Nat → Int) (j : Nat) (hj : j < s.op_.rank) :
    sliceIndexFun s inds j = s.starts_ j + inds j * s.strides_ j := by
  unfold sliceIndexFun
  rw [hd]
  rw [sliceIndexAux_get s.strides_ inds (List.range s.op_.rank) (List.nodup_range _)
    j 0 _ j (by rw [List.get?_eq_getElem?, List.getElem?_range hj])]
  simp

/-- Reading position `j < n` of `(List.range n).map f` with default gives
`f j`. -/
theorem getD_map_range (f : Nat → Int) (n j : Nat) (hj : j < n) (d : Int) :
    ((List.range n).map f).getD j d = f j := by
  rw [List.getD_eq_getElem?_getD]
  simp [List.getElem?_map, List.getElem?_range hj]

/-- The slice-composition law restricted to the drop-free case: two slices
that keep every dimension compose into the single slice whose per-dimension
start is `s1 + s2*st1` and whose stride is `st1*st2` (with any non-dropping
composed end); both read the same element of the wrapped operand at every
output index vector.  When the outer slice drops a dimension the law fails on
the code (see the divergence below). -/
theorem slice_composition_no_drop (α : Type) (T : Operator α)
    (s1 st1 s2 st2 : Nat → Int) (e1 e2 e3 : Nat → SliceBound)
    (h1 : ∀ i, e1 i ≠ SliceBound.matxDropDim)
    (h2 : ∀ i, e2 i ≠ SliceBound.matxDropDim)
    (h3 : ∀ i, e3 i ≠ SliceBound.matxDropDim)
    (S1 S2 S3 : SliceOp α)
    (hS1 : mkSliceOp T.rank T s1 e1 st1 = Except.ok S1)
    (hS2 : mkSliceOp S1.toOperator.rank S1.toOperator s2 e2 st2 = Except.ok S2)
    (hS3 : mkSliceOp T.rank T (fun i => s1 i + s2 i * st1 i) e3
      (fun i => st1 i * st2 i) = Except.ok S3)
    (inds : Nat → Int) :
    sliceAccess S2 inds = sliceAccess S3 inds := by
  rw [mkSliceOp_no_drop T s1 e1 st1 h1] at hS1
  injection hS1 with hS1
  subst hS1
  rw [mkSliceOp_no_drop _ s2 e2 st2 h2] at hS2
  injection hS2 with hS2
  subst hS2
  rw [mkSliceOp_no_drop T _ e3 _ h3] at hS3
  injection hS3 with hS3
  subst hS3
  simp only [sliceAccess, SliceOp.toOperator]
  apply congrArg
  apply List.map_congr_left
  intro j hj
  have hjn : j < T.rank := List.mem_range.mp hj
  rw [sliceIndexFun_no_drop _ rfl _ j hjn, sliceIndexFun_no_drop _ rfl _ j hjn]
  rw [getD_map_range _ _ _ hjn]
  rw [sliceIndexFun_no_drop _ rfl _ j hjn]
  ring

/-- A concrete rank-1 operand: 100 elements, element access returns the
index itself. -/
def wT : Operator Int := ⟨1, fun _ => 100, fun l => l.getD 0 0⟩

/-- `slice(wT, {2}, {50}, {3})`. -/
def wS1 : SliceOp Int := ⟨wT, 1, fun _ => 2, fun _ => 3, [0], [16]⟩

/-- `slice(wS1, {1}, {10}, {2})`. -/
def wS2 : SliceOp Int := ⟨wS1.toOperator, 1, fun _ => 1, fun _ => 2, [0], [5]⟩

/-- The composed slice `slice(wT, {2 + 1*3}, {60}, {3*2})`. -/
def wS3 : SliceOp Int := ⟨wT, 1, fun _ => 2 + 1 * 3, fun _ => 3 * 2, [0], [10]⟩

theorem slice_composition_no_drop_example :
    sliceAccess wS2 (fun _ => 1) = sliceAccess wS3 (fun _ => 1) :=
  slice_composition_no_drop Int wT (fun _ => 2) (fun _ => 3) (fun _ => 1) (fun _ => 2)
    (fun _ => SliceBound.explicit 50) (fun _ => SliceBound.explicit 10)
    (fun _ => SliceBound.explicit 60)
    (fun _ h => SliceBound.noConfusion h)
    (fun _ h => SliceBound.noConfusion h)
    (fun _ h => SliceBound.noConfusion h)
    wS1 wS2 wS3 rfl rfl rfl (fun _ => 1)

/-- A concrete rank-2 operand with extents 10×10; element access returns
`100*i0 + i1` so the index a read reaches is visible in the value. -/
def exTOp : Operator Int := ⟨2, fun _ => 10, fun l => 100 * l.getD 0 0 + l.getD 1 0⟩

/-- Slice parameters dropping dimension 0 (its start offset 0 becomes a
fixed coordinate) and keeping dimension 1 with start 0, explicit end 8. -/
def exEnds : Nat → SliceBound := fun i =>
  if i = 0 then SliceBound.matxDropDim else SliceBound.explicit 8

/-- Strides 2 for (dropped) dimension 0 and 1 for (retained) dimension 1. -/
def exStrides : Nat → Int := fun i => if i = 0 then 2 else 1

/-- The slice `slice<1>(exTOp, {0,0}, {matxDropDim, 8}, {2,1})` as built by
the constructor. -/
def exSliceE : Except String (SliceOp Int) :=
  mkSliceOp 1 exTOp (fun _ => 0) exEnds exStrides

/-- The successful result of `exSliceE`. -/
def exSliceD : SliceOp Int := ⟨exTOp, 1, fun _ => 0, exStrides, [1], [4]⟩

theorem exSliceE_eq : exSliceE = Except.ok exSliceD := rfl

/-- Claim C3: at output index 3 of the dimension-dropping slice `exSliceD`,
the code multiplies by `strides_[0] = 2` (the stride stored at the OUTPUT
position, here the dropped dimension's stride) and reads the operand at
`(0, 6)`, while the spec's reconstruction — `index * stride` of the retained
original dimension — reads `(0, 3)`; the dropped dimension's start offset 0
is used as a fixed coordinate and the output rank is input rank minus 1. -/
theorem C3_slice_access_stride_divergence :
    Except.map (fun s => sliceAccess s (fun _ => 3)) exSliceE = Except.ok 6 ∧
    Except.map (fun s => specSliceAccess s (fun _ => 3)) exSliceE = Except.ok 3 ∧
    Except.map (fun s => sliceIndexFun s (fun _ => 3) 0) exSliceE = Except.ok 0 ∧
    Except.map (fun s => s.outRank) exSliceE = Except.ok (exTOp.rank - 1) :=
  ⟨rfl, rfl, rfl, rfl⟩

/-- Claim C4: the constructed extent of the retained dimension of `exSliceD`
is `ceil((8-0)/strides_[0]) = ceil(8/2) = 4` — the code divides by the stride
stored at the OUTPUT position — while the spec formula
`ceil((resolved_end - start)/stride)` with that dimension's own stride 1
gives 8. -/
theorem C4_slice_size_stride_divergence :
    Except.map (fun s => s.sizes_) exSliceE = Except.ok [4] ∧
    specRetainedSize exTOp (fun _ => 0) exEnds exStrides 1 = 8 :=
  ⟨rfl, rfl⟩

/-- Claim C8: slice construction succeeds exactly when the number of
non-dropped dimensions equals the declared output rank `DIM`; otherwise it
fails immediately with the diagnostic naming the violated invariant; and on
success the retained dimensions are kept in their original (strictly
increasing) order, none truncated. -/
theorem C8_slice_construction_check (α : Type) (DIM : Nat) (op : Operator α)
    (starts : Nat → Int) (ends : Nat → SliceBound) (strides : Nat → Int) :
    (isOkE (mkSliceOp DIM op starts ends strides) = true ↔
      (List.range op.rank).countP (fun i => ends i ≠ SliceBound.matxDropDim) = DIM) ∧
    ((List.range op.rank).countP (fun i => ends i ≠ SliceBound.matxDropDim) ≠ DIM →
      mkSliceOp DIM op starts ends strides =
        Except.error "SliceOp: Number of dimensions without matxDropDim must equal new rank.") ∧
    (∀ s, mkSliceOp DIM op starts ends strides = Except.ok s →
      s.dims_ = retainedDims op.rank ends ∧ List.Sorted (· < ·) s.dims_ ∧
        s.dims_.length = DIM) := by
  have hcount : (List.range op.rank).countP
      (fun i => decide (ends i ≠ SliceBound.matxDropDim)) = (retainedDims op.rank ends).length :=
    List.countP_eq_length_filter _ _
  by_cases h : (retainedDims op.rank ends).length = DIM
  · refine ⟨⟨fun _ => hcount.trans h, fun _ => by simp [mkSliceOp, h, isOkE]⟩, ?_, ?_⟩
    · intro hne; exact absurd (hcount.trans h) hne
    · intro s hs
      simp only [mkSliceOp, h, if_true] at hs
      injection hs with hs
      subst hs
      refine ⟨rfl, ?_, h⟩
      exact List.Pairwise.sublist (List.filter_sublist _) (List.pairwise_lt_range op.rank)
  · refine ⟨⟨fun hok => ?_, fun hc => absurd (hcount.symm.trans hc) h⟩, ?_, ?_⟩
    · simp [mkSliceOp, h, isOkE] at hok
    · intro _; simp [mkSliceOp, h]
    · intro s hs
      simp [mkSliceOp, h] at hs

theorem C8_slice_construction_check_witness :
    exSliceD.dims_ = retainedDims exTOp.rank exEnds ∧
      List.Sorted (· < ·) exSliceD.dims_ ∧ exSliceD.dims_.length = 1 :=
  (C8_slice_construction_check Int 1 exTOp (fun _ => 0) exEnds exStrides).2.2
    exSliceD rfl

/-- Rank-3 operand A with extents [2,3,4]. -/
def exA : ShapeOp := ⟨3, fun i => [2, 3, 4].getD i 0⟩

/-- Rank-3 operand B with extents [3,5,4]; after permuting axis pair (0,1)
to the trailing positions, permuted A is [4,2,3] and permuted B is [4,3,5],
a well-formed batched multiply. -/
def exB : ShapeOp := ⟨3, fun i => [3, 5, 4].getD i 0⟩

/-- Claim C1: the no-permutation rule reports [4,5] for A=[4,3], B=[3,5] as
the spec says, but with the explicit axis pair (0,1) on the rank-3 operands
`exA`/`exB` the constructor reports extents [5,2,2], while the
permuted-then-restored rule of the spec gives [2,5,4]. -/
theorem C1_matmul_output_extents :
    ((List.range 2).map
        (matMulNoPermOutDims ⟨2, fun i => [4, 3].getD i 0⟩ ⟨2, fun i => [3, 5].getD i 0⟩)
      = [some 4, some 5]) ∧
    ((List.range 3).map (matMulWithAxisOutDims exA exB (0, 1)) = [5, 2, 2]) ∧
    ((List.range 3).map (specPermutedMatMulDims exA exB (0, 1)) = [2, 5, 4]) :=
  ⟨rfl, rfl, rfl⟩

/-- Claim C5, counterexample: `TraceOp::PreRun` on the synchronous/host
execution context still allocates its owned temporary (in host memory), so
the host path is not allocation-free. -/
theorem C5_trace_host_alloc_counterexample :
    tracePreRunAlloc ExecKind.hostExec ≠ none := by
  simp [tracePreRunAlloc]

/-- Claim C5 (amended): the matmul, covariance and cumulative-sum nodes
allocate their owned temporary (async device memory, sized to their output
extents) during PreRun exactly when the execution context is the
asynchronous/device kind, and allocate nothing on the host context; the
trace node allocates on both contexts, using host memory on the host
context. -/
theorem C5_prerun_allocation_gating :
    (∀ (dims : List (Option Int)) (ex : ExecKind),
      covPreRunAlloc dims ex =
        if ex = ExecKind.deviceExec then some (dims, MemKind.asyncDevice) else none) ∧
    (∀ (dims : List Int) (ex : ExecKind),
      cumSumPreRunAlloc dims ex =
        if ex = ExecKind.deviceExec then some (dims, MemKind.asyncDevice) else none) ∧
    (∀ (dims : List Int) (ex : ExecKind),
      matMulPreRunAlloc dims ex =
        if ex = ExecKind.deviceExec then some (dims, MemKind.asyncDevice) else none) ∧
    (∀ ex : ExecKind,
      tracePreRunAlloc ex =
        some (if ex = ExecKind.deviceExec then MemKind.asyncDevice else MemKind.hostMem)) := by
  refine ⟨fun dims ex => ?_, fun dims ex => ?_, fun dims ex => ?_, fun ex => ?_⟩ <;>
    cases ex <;> rfl

/-- Claim C6: for both multi-output QR nodes, element access always fails,
PreRun always fails fast with its diagnostic, and Exec succeeds exactly when
the destination tuple has the fixed arity 3. -/
theorem C6_qr_usage_discipline :
    (∀ (α : Type) (idx : List Int), isOkE (qrAccess α idx) = false) ∧
    qrPreRun = Except.error "qr() must only be called with a single assignment" ∧
    (∀ k : Nat, isOkE (qrExec k) = true ↔ k = 3) ∧
    (∀ (α : Type) (idx : List Int), isOkE (cuSolverQrAccess α idx) = false) ∧
    cuSolverQrPreRun = Except.error
      "cusolver_qr() must only be called with a single assignment since it has multiple return types" ∧
    (∀ k : Nat, isOkE (cuSolverQrExec k) = true ↔ k = 3) := by
  refine ⟨fun α idx => rfl, rfl, fun k => ?_, fun α idx => rfl, rfl, fun k => ?_⟩ <;>
    · by_cases hk : k = 3 <;> simp [hk, isOkE, qrExec, cuSolverQrExec]

/-- Claim C7: a covariance node (where constructible, i.e. rank at most 2 —
see the out-of-bounds analysis) and a cumulative-sum node report their
input's rank and extents; a trace node reports rank 0; and for all three the
extents captured at construction depend only on the operand's shape, not on
its element storage, so later storage mutation leaves them unchanged. -/
theorem C7_transform_shape_rules :
    (∀ a : Operator Int, a.rank ≤ 2 →
      ∃ c, mkCovOp a = some c ∧ c.rank = a.rank ∧
        ∀ r, r < a.rank → covSize c r = some (a.size r)) ∧
    (∀ a : Operator Int, (mkCumSumOp a).rank = a.rank ∧
      ∀ r, r < a.rank → cumSumSize (mkCumSumOp a) r = a.size r) ∧
    traceRank = 0 ∧
    (∀ (n : Nat) (sz : Nat → Int) (f g : List Int → Int),
      mkCovOp (⟨n, sz, f⟩ : Operator Int) = mkCovOp ⟨n, sz, g⟩ ∧
      mkCumSumOp (⟨n, sz, f⟩ : Operator Int) = mkCumSumOp ⟨n, sz, g⟩) := by
  refine ⟨?_, ?_, rfl, fun n sz f g => ⟨rfl, rfl⟩⟩
  · rintro ⟨n, sz, rd⟩ h
    simp only at h
    interval_cases n
    · exact ⟨_, rfl, rfl, by intro r hr; simp only at hr; omega⟩
    · refine ⟨_, rfl, rfl, ?_⟩
      intro r hr
      interval_cases r
      · rfl
    · refine ⟨_, rfl, rfl, ?_⟩
      intro r hr
      interval_cases r
      · rfl
      · rfl
  · intro a
    refine ⟨rfl, ?_⟩
    intro r hr
    unfold cumSumSize mkCumSumOp
    exact getD_map_range a.size a.rank r hr 0

theorem C7_transform_shape_rules_witness :
    ∃ c, mkCovOp exTOp = some c ∧ c.rank = exTOp.rank ∧
      ∀ r, r < exTOp.rank → covSize c r = some (exTOp.size r) :=
  C7_transform_shape_rules.1 exTOp (by decide)

/-- `CovOp`s constructor loop stays inside the length-2 `out_dims_` array
exactly when the operand rank is at most 2. -/
theorem covWriteIndices_all_iff (n : Nat) :
    ((covWriteIndices n).all (fun r => r < covOutDimsInit.length) = true) ↔ n ≤ 2 := by
  rw [List.all_eq_true]
  simp only [covWriteIndices, List.mem_range, covOutDimsInit, decide_eq_true_eq]
  constructor
  · intro hall
    by_contra hn
    have := hall 2 (by omega)
    simp at this
  · intro hn r hr
    simp only [List.length_cons, List.length_nil]
    omega

/-- Claim C9: `CovOp` keeps its output extents in the fixed-length-2 array
`out_dims_` while its constructor writes entries 0..Rank()-1 (read back by
`Size`); those writes are in bounds exactly when the input rank is at most
2, and for a rank-3 operand the written index 2 is past the end of the
array, so construction over rank greater than 2 indexes out of bounds. -/
theorem C9_cov_outdims_out_of_bounds :
    (∀ a : Operator Int, (mkCovOp a).isSome = true ↔ a.rank ≤ 2) ∧
    covOutDimsInit.length = 2 ∧
    (∀ rank : Nat, (∀ r ∈ covWriteIndices rank, r < covOutDimsInit.length) ↔ rank ≤ 2) ∧
    (2 ∈ covWriteIndices 3 ∧ ¬ (2 < covOutDimsInit.length)) := by
  refine ⟨?_, rfl, ?_, by decide, by decide⟩
  · intro a
    constructor
    · intro hs
      by_contra h
      have hnone : mkCovOp (α := Int) a = none := by
        unfold mkCovOp
        rw [if_neg]
        intro hh
        exact h ((covWriteIndices_all_iff a.rank).mp hh)
      rw [hnone] at hs
      simp at hs
    · intro h
      unfold mkCovOp
      rw [if_pos ((covWriteIndices_all_iff a.rank).mpr h)]
      rfl
  · intro rank
    simp only [covWriteIndices, List.mem_range, covOutDimsInit, List.length_cons,
      List.length_nil]
    constructor
    · intro hall
      by_contra hn
      have := hall 2 (by omega)
      omega
    · intro hn r hr
      omega

/-- Claim C10: the permuted-branch constructor of `MatMulOp` always prints
`out_dims_[0]`, `out_dims_[1]`, `out_dims_[2]` (the no-permutation branch
prints nothing); those reads are within the rank-sized `out_dims_` array
exactly when the operand rank is at least 3, and for rank-2 operands the
read of index 2 is past the end of the array. -/
theorem C10_matmul_perm_printf :
    (∀ (a b : ShapeOp) (perm : Nat → Nat), (matMulPermConstruct a b perm).2 = [0, 1, 2]) ∧
    (∀ a b : ShapeOp, (matMulNoPermConstruct a b).2 = []) ∧
    (∀ (a b : ShapeOp) (perm : Nat → Nat),
      (∀ i ∈ (matMulPermConstruct a b perm).2, i < matMulOutDimsLen a) ↔ 3 ≤ a.rank) ∧
    (2 ∈ (matMulPermConstruct ⟨2, fun _ => 0⟩ ⟨2, fun _ => 0⟩ id).2 ∧
      ¬ (2 < matMulOutDimsLen ⟨2, fun _ => 0⟩)) := by
  refine ⟨fun a b perm => rfl, fun a b => rfl, ?_, by decide, by decide⟩
  intro a b perm
  simp only [matMulPermConstruct, matMulOutDimsLen, List.mem_cons, List.not_mem_nil,
    or_false]
  constructor
  · intro hall
    have := hall 2 (by tauto)
    omega
  · intro h3 i hi
    rcases hi with h | h | h <;> omega

/-- A concrete rank-2 operand with extents 100×100; element access returns
`100*i0 + i1` so the index a read reaches is visible in the value. -/
def cexT : Operator Int := ⟨2, fun _ => 100, fun l => 100 * l.getD 0 0 + l.getD 1 0⟩

/-- The inner slice `slice<2>(cexT, {0,0}, {100,100}, {1,5})` (drop-free). -/
def cexInner : SliceOp Int :=
  ⟨cexT, 2, fun _ => 0, fun i => if i = 0 then 1 else 5, [0, 1], [100, 20]⟩

theorem cexInner_eq :
    mkSliceOp 2 cexT (fun _ => 0) (fun _ => SliceBound.explicit 100)
      (fun i => if i = 0 then 1 else 5) = Except.ok cexInner := rfl

/-- The outer slice parameters `{0,0}, {matxDropDim, 20}, {1,1}`: drop
dimension 0, keep dimension 1 untouched. -/
def cexEnds2 : Nat → SliceBound := fun i =>
  if i = 0 then SliceBound.matxDropDim else SliceBound.explicit 20

/-- The nested slice `slice<1>(cexInner, {0,0}, {matxDropDim,20}, {1,1})`. -/
def cexOuterE : Except String (SliceOp Int) :=
  mkSliceOp 1 cexInner.toOperator (fun _ => 0) cexEnds2 (fun _ => 1)

/-- The claim's single composed slice over the base operand: start
`s1 + s2*st1 = {0,0}`, stride `st1*st2 = {1,5}`, with the correspondingly
composed (dimension-0-dropping) end. -/
def cexComposedE : Except String (SliceOp Int) :=
  mkSliceOp 1 cexT (fun _ => 0) cexEnds2 (fun i => if i = 0 then 1 else 5)

/-- Claim C2: both the nested and the composed slice construct successfully
and report extent 20 (so output index 1 is valid), yet at output index 1 the
nested slices read the operand at (0,5), value 5, while the claimed composed
slice reads (0,1), value 1 — because `operator()` multiplies by the stride
stored at the OUTPUT position, the dropped dimension 0's stride 1, instead
of the retained dimension's composed stride 5.  Under the spec's index
reconstruction the composed slice reads (0,5) and the law holds, so the
divergence is exactly the output-position stride-indexing slip. -/
theorem C2_slice_composition_divergence :
    Except.map (fun s => s.sizes_) cexOuterE = Except.ok [20] ∧
    Except.map (fun s => s.sizes_) cexComposedE = Except.ok [20] ∧
    Except.map (fun s => sliceAccess s (fun _ => 1)) cexOuterE = Except.ok 5 ∧
    Except.map (fun s => sliceAccess s (fun _ => 1)) cexComposedE = Except.ok 1 ∧
    Except.map (fun s => specSliceAccess s (fun _ => 1)) cexComposedE = Except.ok 5 :=
  ⟨rfl, rfl, rfl, rfl, rfl⟩
